import Mathlib

/-!
Verification of the USB framed-transport protocol client (`fluxclient/usb/usb2.py`).

The wire-level codec, the handshake state machine, the steady-state
receive/dispatch loop, the channel-lifecycle control handling and the
transport error mapping are embedded as executable Lean definitions,
translated directly from the Python source.  Bytes are modelled as `Nat`
values below 256 and byte strings as `List Nat`.  The external msgpack
codec is kept abstract (it is out of scope for the protocol core), as is
the raw USB transport, which is modelled by the outcomes it can produce.

The file is laid out as all definitions first, then all lemmas and
theorems.
-/

namespace Usb2

/-- `HEAD_PACKER = Struct("<HB")`: a 2-byte little-endian size followed by a
1-byte channel id.  `struct.pack` rejects out-of-range values, so callers
always satisfy `size < 65536` and `channel < 256`; the `% 256` here only
makes the definition total. -/
def headPack (size channel : Nat) : List Nat :=
  [size % 256, size / 256 % 256, channel % 256]

/-- Result of `USBProtocol._unpack_buffer`: the Python method returns
`(None, None, None)` when fewer than a full frame is buffered,
`(-1, None, None)` for a zero-size marker, and
`(channel_idx, buf, fin)` for a complete frame. -/
inductive UnpackResult where
  | needMoreData : UnpackResult
  | zeroMarker : UnpackResult
  | frame (channel_idx : Nat) (payload : List Nat) (fin : Nat) : UnpackResult
deriving DecidableEq, Repr

/-- `USBProtocol._unpack_buffer`, returning the extraction result together
with the new value of `self._buf`.  Mirrors the source line by line:
header read via `HEAD_PACKER.unpack(self._buf[:3])`, the `size == 0`
branch drops exactly 2 bytes, the complete-frame branch slices
`self._buf[3:size-1]` and `self._buf[size-1]` and drops `size` bytes. -/
def unpack_buffer (buf : List Nat) : UnpackResult × List Nat :=
  if 3 < buf.length then
    let size := buf.getD 0 0 + 256 * buf.getD 1 0
    let channel_idx := buf.getD 2 0
    if size = 0 then
      (UnpackResult.zeroMarker, buf.drop 2)
    else if size ≤ buf.length then
      (UnpackResult.frame channel_idx ((buf.take (size - 1)).drop 3) (buf.getD (size - 1) 0),
       buf.drop size)
    else
      (UnpackResult.needMoreData, buf)
  else
    (UnpackResult.needMoreData, buf)

/-- The frame layout shared by `send_object`, `send_binary` and
`_send_binary_ack`: `HEAD_PACKER.pack(len(payload) + 4, channel) + payload
+ bytes([terminator])`. -/
def pack_frame (channel : Nat) (payload : List Nat) (fin : Nat) : List Nat :=
  headPack (payload.length + 4) channel ++ payload ++ [fin]

/-- `USBProtocol.send_object` frame bytes for an already msgpack-encoded
payload: the terminator byte the source appends is `b"\xb0"`. -/
def send_object_buf (channel : Nat) (payload : List Nat) : List Nat :=
  pack_frame channel payload 0xb0

/-- `USBProtocol.send_binary` frame bytes: the terminator byte the source
appends is `b"\xbf"`. -/
def send_binary_buf (channel : Nat) (payload : List Nat) : List Nat :=
  pack_frame channel payload 0xbf

/-- `USBProtocol._send_binary_ack`: `HEAD_PACKER.pack(4, channel_idx) +
b"\x80"`. -/
def send_binary_ack_buf (channel_idx : Nat) : List Nat :=
  headPack 4 channel_idx ++ [0x80]

/-- `errno.ETIMEDOUT` (Linux value; only its identity is relevant). -/
def ETIMEDOUT : Int := 110

/-- Outcome of one low-level `self._tx.write(buf)` call. -/
inductive WriteOutcome where
  | ok
  | usbError (errno : Int)
deriving DecidableEq

/-- Outcome of one low-level `self._rx.read(length, timeout)` call. -/
inductive ReadOutcome where
  | bytes (data : List Nat)
  | usbError (errno : Int)
deriving DecidableEq

/-- A `FluxUSBError`, reduced to its machine-readable `symbol` tuple whose
elements are strings or raw platform error numbers.
`FluxUSBError.__init__` stores `kw.get("symbol", ("UNKNOWN_ERROR",))`, so
an error raised without an explicit `symbol` carries the one-element
default tuple. -/
structure FluxUSBErrorRec where
  symbol : List (String ⊕ Int)
deriving DecidableEq

/-- `errorcode.get(e.errno, e.errno)`: the symbolic name when the platform
table knows the errno, else the raw errno. -/
def errorcode_elem (errorcode : Int → Option String) (errno : Int) : String ⊕ Int :=
  match errorcode errno with
  | some s => Sum.inl s
  | none => Sum.inr errno

/-- `USBProtocol._send`: a USB write timeout becomes a `TIMEOUT` error, any
other USB error becomes `("UNKNOWN_ERROR", errorcode.get(e.errno, e.errno))`. -/
def flux_send (errorcode : Int → Option String) (w : WriteOutcome) :
    Except FluxUSBErrorRec Unit :=
  match w with
  | WriteOutcome.ok => Except.ok ()
  | WriteOutcome.usbError errno =>
    if errno = ETIMEDOUT then
      Except.error ⟨[Sum.inl "TIMEOUT"]⟩
    else
      Except.error ⟨[Sum.inl "UNKNOWN_ERROR", errorcode_elem errorcode errno]⟩

/-- `USBProtocol._recv`: a USB read timeout is returned as empty bytes, any
other USB error is re-raised as `FluxUSBError(*e.args)`, which keeps the
default symbol `("UNKNOWN_ERROR",)` with no platform code attached. -/
def flux_recv (r : ReadOutcome) : Except FluxUSBErrorRec (List Nat) :=
  match r with
  | ReadOutcome.bytes d => Except.ok d
  | ReadOutcome.usbError errno =>
    if errno = ETIMEDOUT then
      Except.ok []
    else
      Except.error ⟨[Sum.inl "UNKNOWN_ERROR"]⟩

/-- Symbol tuple of a raised `FluxUSBError`, `none` when no error was
raised. -/
def error_symbol {α : Type} : Except FluxUSBErrorRec α → Option (List (String ⊕ Int))
  | Except.error e => some e.symbol
  | Except.ok _ => none

/-!  Channel map and control-channel handling.

`self.channels` is a Python dict from channel index to `Channel`; it is
modelled as an insertion-ordered association list with unique keys.  A
`Channel` is reduced to the state the receive loop interacts with: the
pending-object queue, the two semaphore counters (modelled by the number
of releases) and the optional binary sink (modelled by the list of blocks
delivered to it). -/

/-- The mutable state of one `Channel` object. -/
structure ChannelSt where
  objq : List Nat
  obj_semaphore : Nat
  ack_semaphore : Nat
  binary_stream : Option (List (List Nat))
deriving DecidableEq

/-- `Channel.__init__`: empty queue, both semaphores at 0, no binary sink
(class attribute `binary_stream = None`). -/
def Channel_new : ChannelSt := ⟨[], 0, 0, none⟩

/-- `self.channels.get(k)`. -/
def dictGet (l : List (Nat × ChannelSt)) (k : Nat) : Option ChannelSt :=
  (l.find? (fun p => p.1 == k)).map Prod.snd

/-- `self.channels[k] = v`: replace in place, or append a new key. -/
def dictSet : List (Nat × ChannelSt) → Nat → ChannelSt → List (Nat × ChannelSt)
  | [], k, v => [(k, v)]
  | p :: t, k, v => if p.1 = k then (k, v) :: t else p :: dictSet t k v

/-- `self.channels.pop(k)` minus the KeyError case (callers check first). -/
def dictPop : List (Nat × ChannelSt) → Nat → List (Nat × ChannelSt)
  | [], _ => []
  | p :: t, k => if p.1 = k then t else p :: dictPop t k

/-- A decoded control-response object `{channel, status, action}`.
`obj.get(...)` returns `None` for a missing `status`/`action` key; the
channel index is modelled for responses that carry an integer one. -/
structure CtrlResponse where
  channel : Nat
  status : Option String
  action : Option String
deriving DecidableEq

/-- The `USBProtocol` state the steady-state loop mutates.  `chl_semaphore`
counts releases of the channel-open semaphore and `sends` records every
raw frame written to the transport. -/
structure SessionSt where
  buf : List Nat
  channels : List (Nat × ChannelSt)
  chl_semaphore : Nat
  sends : List (List Nat)
  running : Bool
deriving DecidableEq

/-- `USBProtocol._on_channel_ctrl_response`.  Returns `none` when the
Python code would raise `KeyError` (a `"close"`/`"ok"` response for an
unregistered index); in every other non-matching branch the handler only
logs, so the state is returned unchanged. -/
def on_channel_ctrl_response (st : SessionSt) (obj : CtrlResponse) : Option SessionSt :=
  if obj.action = some "open" then
    if obj.status = some "ok" then
      some { st with channels := dictSet st.channels obj.channel Channel_new,
                     chl_semaphore := st.chl_semaphore + 1 }
    else
      some st
  else if obj.action = some "close" then
    if obj.status = some "ok" then
      match dictGet st.channels obj.channel with
      | some _ => some { st with channels := dictPop st.channels obj.channel }
      | none => none
    else some st
  else some st

/-- `USBProtocol.open_channel`'s index selection: `idx = None`, then
`for i in range(len(self.channels) + 1): if self.channels.get(i) is None:
idx = i` — without a `break`, so `idx` ends as the last free index the
loop saw. -/
def open_channel_idx (channels : List (Nat × ChannelSt)) : Option Nat :=
  (List.range (channels.length + 1)).foldl
    (fun idx i => if dictGet channels i = none then some i else idx) none

/-- The structured open request `{channel: idx, action: "open", type}` that
`open_channel` sends on the control-request id `0xF0`. -/
structure OpenRequest where
  channel : Option Nat
  action : String
  type : String
deriving DecidableEq

/-- The object `open_channel` sends for a given channel-map state. -/
def open_channel_request (channels : List (Nat × ChannelSt)) (channel_type : String) :
    OpenRequest :=
  { channel := open_channel_idx channels, action := "open", type := channel_type }

/-!  Handshake state machine (`USBProtocol.do_handshake`).

The msgpack codec is abstract: a handshake payload decodes (or fails to
decode) into an optional `session` value plus an opaque remainder that
becomes the endpoint profile.  Outbound handshake traffic is recorded as
the `(channel, object)` pairs handed to `send_object`. -/

/-- A value stored under the `"session"` key, or the `"?"` default that
`data.pop("session", "?")` substitutes for a missing key. -/
inductive SessionId where
  | strQ
  | val (n : Nat)
deriving DecidableEq

/-- A decoded handshake object: the optional `"session"` entry and an
opaque stand-in for the remaining mapping (the endpoint profile). -/
structure HSMap where
  session : Option SessionId
  profile : Nat
deriving DecidableEq

/-- An object sent during the handshake: the ping `None` payload or the
acknowledge object `{"session": ..., "client": "fluxclient-..."}`. -/
inductive HSOut where
  | pyNone
  | ackObj (session : SessionId)
deriving DecidableEq

/-- Handshake-time protocol state: receive buffer, `self.session`,
`self.endpoint_profile`, and the `(channel, object)` pairs sent so far. -/
structure HSState where
  buf : List Nat
  session : Option SessionId
  endpoint_profile : Option Nat
  sends : List (Nat × HSOut)
deriving DecidableEq

/-- A successful extraction observed by the handshake's inner drain loop
(`d[0] == -1` or a complete frame). -/
inductive DrainEvent where
  | zeroMarker
  | frame (channel_idx : Nat) (payload : List Nat) (fin : Nat)
deriving DecidableEq

/-- The handshake's inner `while True` drain: unpack until nothing more
extracts, keeping the last successful result.  Each successful extraction
consumes at least one byte, so `buf.length + 1` fuel always suffices. -/
def drain_buffer : Nat → List Nat → Option DrainEvent → Option DrainEvent × List Nat
  | 0, buf, data => (data, buf)
  | fuel + 1, buf, data =>
    match unpack_buffer buf with
    | (UnpackResult.needMoreData, _) => (data, buf)
    | (UnpackResult.zeroMarker, buf2) => drain_buffer fuel buf2 (some DrainEvent.zeroMarker)
    | (UnpackResult.frame c p f, buf2) => drain_buffer fuel buf2 (some (DrainEvent.frame c p f))

/-- `USBProtocol._handle_handshake`: decode the offer, pop the session id
(defaulting to `"?"`), store session and profile, and acknowledge on
channel `0xFE`.  `none` models a msgpack decode exception. -/
def handle_handshake (uObj : List Nat → Option HSMap) (st : HSState) (payload : List Nat) :
    Option HSState :=
  match uObj payload with
  | none => none
  | some data =>
    let session := data.session.getD SessionId.strQ
    some { st with session := some session,
                   endpoint_profile := some data.profile,
                   sends := st.sends ++ [(0xfe, HSOut.ackObj session)] }

/-- `USBProtocol._final_handshake` given the stored session `s`: decode the
confirmation and compare its `"session"` entry with `s`; on mismatch the
stored session is cleared.  `none` models a decode exception or the
`KeyError` of `data["session"]`. -/
def final_handshake (uObj : List Nat → Option HSMap) (st : HSState) (payload : List Nat)
    (s : SessionId) : Option (Bool × HSState) :=
  match uObj payload with
  | none => none
  | some data =>
    match data.session with
    | none => none
    | some sid =>
      if sid = s then some (true, st) else some (false, { st with session := none })

/-- How `do_handshake` terminates: success, the `"Handshake failed."`
error, or a propagated decode exception. -/
inductive HSOutcome where
  | established
  | failed
  | exn
deriving DecidableEq

/-- The `while ttl` loop of `USBProtocol.do_handshake`.  `step` indexes the
successive transport reads; `fuel` bounds the number of loop iterations
(the `continue` paths do not decrement `ttl`, so the Python loop is not
structurally bounded by `ttl` alone); `none` means fuel ran out. -/
def handshake_loop (uObj : List Nat → Option HSMap) (chunks : Nat → List Nat) :
    Nat → Nat → Nat → HSState → Option (HSOutcome × HSState)
  | 0, _, _, _ => none
  | fuel + 1, ttl, step, st =>
    if ttl = 0 then
      some (HSOutcome.failed, st)
    else
      let buf1 := st.buf ++ chunks step
      let dr := drain_buffer (buf1.length + 1) buf1 none
      let st2 : HSState := { st with buf := dr.2 }
      match dr.1 with
      | some (DrainEvent.frame cidx payload fin) =>
        if cidx = 0xff ∧ fin = 0xf0 then
          match handle_handshake uObj st2 payload with
          | none => some (HSOutcome.exn, st2)
          | some st3 => handshake_loop uObj chunks fuel ttl (step + 1) st3
        else if cidx = 0xfd ∧ fin = 0xf0 then
          match st2.session with
          | some s =>
            match final_handshake uObj st2 payload s with
            | none => some (HSOutcome.exn, st2)
            | some (true, st3) => some (HSOutcome.established, st3)
            | some (false, st3) =>
              handshake_loop uObj chunks fuel (ttl - 1) (step + 1)
                { st3 with sends := st3.sends ++ [(0xfc, HSOut.pyNone)] }
          | none =>
            handshake_loop uObj chunks fuel (ttl - 1) (step + 1)
              { st2 with sends := st2.sends ++ [(0xfc, HSOut.pyNone)] }
        else
          handshake_loop uObj chunks fuel ttl (step + 1) st2
      | some DrainEvent.zeroMarker =>
        handshake_loop uObj chunks fuel ttl (step + 1) st2
      | none =>
        handshake_loop uObj chunks fuel (ttl - 1) (step + 1)
          { st2 with sends := st2.sends ++ [(0xfc, HSOut.pyNone)] }

/-- `USBProtocol.do_handshake`: starts with `ttl = 5`, an empty buffer, no
session and nothing sent. -/
def do_handshake (uObj : List Nat → Option HSMap) (chunks : Nat → List Nat) (fuel : Nat) :
    Option (HSOutcome × HSState) :=
  handshake_loop uObj chunks fuel 5 0 ⟨[], none, none, []⟩

/-- Concatenation of `k` successive reads starting at read index `step`. -/
def accFrom (chunks : Nat → List Nat) (step : Nat) : Nat → List Nat
  | 0 => []
  | k + 1 => accFrom chunks step k ++ chunks (step + k)

/-!  Steady-state receive/dispatch loop (`USBProtocol.run_once` / `run`).

The msgpack decoders are abstract parameters: `decodeObj` produces the
opaque object appended to a data channel's queue, `decodeCtrl` the
structured control response.  Both model `msgpack.unpackb`. -/

/-- `Channel.on_object`: append the decoded object, release one waiter. -/
def channel_on_object (ch : ChannelSt) (obj : Nat) : ChannelSt :=
  { ch with objq := ch.objq ++ [obj], obj_semaphore := ch.obj_semaphore + 1 }

/-- `Channel.on_binary`: deliver to the registered sink, or log and drop. -/
def channel_on_binary (ch : ChannelSt) (payload : List Nat) : ChannelSt :=
  match ch.binary_stream with
  | some s => { ch with binary_stream := some (s ++ [payload]) }
  | none => ch

/-- `Channel.on_binary_ack`: release one waiter of the ack semaphore. -/
def channel_on_binary_ack (ch : ChannelSt) : ChannelSt :=
  { ch with ack_semaphore := ch.ack_semaphore + 1 }

/-- The exceptions one `run_once` iteration can raise: the four
`FluxUSBError` protocol violations, plus the `KeyError` that
`channels.pop` raises inside the control-response handler. -/
inductive RunErr where
  | protocolBroken
  | badChannelIdx (idx : Nat)
  | badFin (fin : Nat)
  | badControlChannel (idx : Nat)
  | keyError
deriving DecidableEq

/-- `USBProtocol.run_once`: feed the buffer with one read, attempt one
extraction, dispatch.  On an error the Python object keeps its partially
updated fields; only the result of the iteration is modelled here. -/
def run_once (decodeObj : List Nat → Nat) (decodeCtrl : List Nat → CtrlResponse)
    (chunk : List Nat) (st : SessionSt) : Except RunErr SessionSt :=
  match unpack_buffer (st.buf ++ chunk) with
  | (UnpackResult.needMoreData, buf2) => Except.ok { st with buf := buf2 }
  | (UnpackResult.zeroMarker, _) => Except.error RunErr.protocolBroken
  | (UnpackResult.frame cidx payload fin, buf2) =>
    if cidx < 0x80 then
      match dictGet st.channels cidx with
      | none => Except.error (RunErr.badChannelIdx cidx)
      | some ch =>
        if fin = 0xf0 then
          Except.ok { st with
                      buf := buf2,
                      channels := dictSet st.channels cidx
                        (channel_on_object ch (decodeObj payload)) }
        else if fin = 0xff then
          Except.ok { st with
                      buf := buf2,
                      sends := st.sends ++ [send_binary_ack_buf cidx],
                      channels := dictSet st.channels cidx (channel_on_binary ch payload) }
        else if fin = 0xc0 then
          Except.ok { st with
                      buf := buf2,
                      channels := dictSet st.channels cidx (channel_on_binary_ack ch) }
        else
          Except.error (RunErr.badFin fin)
    else if cidx = 0xf1 then
      if fin ≠ 0xf0 then
        Except.error (RunErr.badFin fin)
      else
        match on_channel_ctrl_response { st with buf := buf2 } (decodeCtrl payload) with
        | some st2 => Except.ok st2
        | none => Except.error RunErr.keyError
    else
      Except.error (RunErr.badControlChannel cidx)

/-- How `USBProtocol.run` returns: a normal exit (`running` cleared by
`stop`) or an exception with `running` set to `False` before re-raising. -/
inductive RunExit where
  | normal (st : SessionSt)
  | errored (e : RunErr) (st : SessionSt)
deriving DecidableEq

/-- The `while self.running` loop of `USBProtocol.run`; `none` when fuel
runs out with the loop still running. -/
def run_loop (decodeObj : List Nat → Nat) (decodeCtrl : List Nat → CtrlResponse)
    (chunks : Nat → List Nat) : Nat → Nat → SessionSt → Option RunExit
  | 0, _, _ => none
  | fuel + 1, step, st =>
    if st.running then
      match run_once decodeObj decodeCtrl (chunks step) st with
      | Except.ok st2 => run_loop decodeObj decodeCtrl chunks fuel (step + 1) st2
      | Except.error e => some (RunExit.errored e { st with running := false })
    else
      some (RunExit.normal st)

/-- `USBProtocol.run`: set `running`, then loop. -/
def run (decodeObj : List Nat → Nat) (decodeCtrl : List Nat → CtrlResponse)
    (chunks : Nat → List Nat) (fuel : Nat) (st : SessionSt) : Option RunExit :=
  run_loop decodeObj decodeCtrl chunks fuel 0 { st with running := true }

/-- Modelled from the claim wording, for comparison with `run_once`: the
extraction outcomes enumerated as fatal — a zero-size marker; a data frame
(channel id below `0x80`) on an unregistered index; a data frame with a
terminator other than `0xF0`/`0xFF`/`0xC0`; a control-response (`0xF1`)
frame whose terminator is not `0xF0`; any other channel id. -/
def fatal_error_spec (channels : List (Nat × ChannelSt)) : UnpackResult → Bool
  | UnpackResult.needMoreData => false
  | UnpackResult.zeroMarker => true
  | UnpackResult.frame cidx _ fin =>
    if cidx < 0x80 then
      match dictGet channels cidx with
      | none => true
      | some _ => if fin = 0xf0 ∨ fin = 0xff ∨ fin = 0xc0 then false else true
    else if cidx = 0xf1 then
      if fin = 0xf0 then false else true
    else true

/-- Whether an iteration outcome is a raised `FluxUSBError` protocol
violation (the handler's `KeyError` is a different exception). -/
def is_fatal_protocol_error : Except RunErr SessionSt → Bool
  | Except.error RunErr.keyError => false
  | Except.error _ => true
  | Except.ok _ => false

/-!  Lemmas and the claim theorems. -/

/-- A packed frame in explicit cons form. -/
lemma pack_frame_cons (channel : Nat) (payload : List Nat) (fin : Nat) :
    pack_frame channel payload fin =
      (payload.length + 4) % 256 :: (payload.length + 4) / 256 % 256 :: channel % 256 ::
        (payload ++ [fin]) := by
  simp [pack_frame, headPack]

lemma pack_frame_length (channel : Nat) (payload : List Nat) (fin : Nat) :
    (pack_frame channel payload fin).length = payload.length + 4 := by
  simp [pack_frame, headPack]

/-- Decoding the 2-byte little-endian size recovers the size when it is
representable. -/
lemma size_decode (n : Nat) (h : n < 65536) : n % 256 + 256 * (n / 256 % 256) = n := by
  have hdiv : n / 256 < 256 := Nat.div_lt_of_lt_mul (by omega)
  rw [Nat.mod_eq_of_lt hdiv]
  exact Nat.mod_add_div n 256

/-- Unpacking a buffer that holds exactly one packed frame yields the frame
back and empties the buffer. -/
lemma unpack_pack (channel : Nat) (payload : List Nat) (fin : Nat)
    (hc : channel < 256) (hlen : payload.length + 4 < 65536) :
    unpack_buffer (pack_frame channel payload fin) =
      (UnpackResult.frame channel payload fin, []) := by
  have hL : (headPack (payload.length + 4) channel).length = 3 := rfl
  have hlenL : (pack_frame channel payload fin).length = payload.length + 4 :=
    pack_frame_length channel payload fin
  have hg0 : (pack_frame channel payload fin).getD 0 0 = (payload.length + 4) % 256 := rfl
  have hg1 : (pack_frame channel payload fin).getD 1 0 = (payload.length + 4) / 256 % 256 := rfl
  have hg2 : (pack_frame channel payload fin).getD 2 0 = channel % 256 := rfl
  have hmid : payload.length + 4 - 1 = payload.length + 3 := by omega
  have hhdp : (headPack (payload.length + 4) channel ++ payload).length = payload.length + 3 := by
    rw [List.length_append, hL]; omega
  have htake : (pack_frame channel payload fin).take (payload.length + 3) =
      headPack (payload.length + 4) channel ++ payload := by
    rw [pack_frame, ← hhdp]
    exact List.take_left _ _
  have hslice : ((pack_frame channel payload fin).take (payload.length + 3)).drop 3 = payload := by
    rw [htake, ← hL]
    exact List.drop_left _ _
  have hfin : (pack_frame channel payload fin).getD (payload.length + 3) 0 = fin := by
    rw [pack_frame, List.getD_append_right _ _ _ _ (le_of_eq hhdp), hhdp]
    simp
  have hdropall : (pack_frame channel payload fin).drop (payload.length + 4) = [] :=
    List.drop_eq_nil_of_le (le_of_eq hlenL)
  simp only [unpack_buffer, hg0, hg1, hg2, hlenL]
  rw [size_decode _ hlen, Nat.mod_eq_of_lt hc]
  rw [if_pos (by omega), if_neg (by omega), if_pos (by omega)]
  rw [hmid, hslice, hfin, hdropall]

/-- An extraction that reports `needMoreData` leaves the buffer untouched. -/
lemma unpack_needMore_eq (buf : List Nat)
    (h : (unpack_buffer buf).1 = UnpackResult.needMoreData) :
    unpack_buffer buf = (UnpackResult.needMoreData, buf) := by
  rcases hu : unpack_buffer buf with ⟨r, b⟩
  rw [hu] at h
  simp only at h
  rw [h] at hu ⊢
  rw [unpack_buffer] at hu
  by_cases hg : 3 < buf.length
  · rw [if_pos hg] at hu
    by_cases hz : buf.getD 0 0 + 256 * buf.getD 1 0 = 0
    · rw [if_pos hz] at hu
      exact absurd (congrArg Prod.fst hu) (by simp)
    · rw [if_neg hz] at hu
      by_cases hsz : buf.getD 0 0 + 256 * buf.getD 1 0 ≤ buf.length
      · rw [if_pos hsz] at hu
        exact absurd (congrArg Prod.fst hu) (by simp)
      · rw [if_neg hsz] at hu
        rw [← hu]
  · rw [if_neg hg] at hu
    rw [← hu]

/-- C5: packing a frame (2-byte little-endian `total_size = len(payload)+4`,
1-byte channel id, payload, terminator byte) and then extracting from a
buffer holding exactly those bytes yields back the identical channel id,
payload and terminator, and consumes the whole frame. -/
theorem pack_unpack_roundtrip (channel : Nat) (payload : List Nat) (fin : Nat)
    (hc : channel < 256) (hlen : payload.length + 4 < 65536) :
    unpack_buffer (pack_frame channel payload fin) =
      (UnpackResult.frame channel payload fin, []) :=
  unpack_pack channel payload fin hc hlen

/-- C5 witness: a concrete round trip. -/
theorem pack_unpack_roundtrip_witness :
    unpack_buffer (pack_frame 7 [1, 2] 0xb0) = (UnpackResult.frame 7 [1, 2] 0xb0, []) :=
  pack_unpack_roundtrip 7 [1, 2] 0xb0 (by decide) (by decide)

/-- C6: a buffer whose first two bytes read as `total_size = 0`, followed by
at least two further bytes, yields the zero-size marker and loses exactly
its first 2 bytes, so the would-be channel-id byte becomes the head of the
remaining buffer. -/
theorem zero_marker_consumes_two (buf : List Nat) (h4 : 4 ≤ buf.length)
    (h0 : buf.getD 0 0 = 0) (h1 : buf.getD 1 0 = 0) :
    unpack_buffer buf = (UnpackResult.zeroMarker, buf.drop 2) ∧
      (buf.drop 2).getD 0 0 = buf.getD 2 0 := by
  constructor
  · rw [unpack_buffer, if_pos (by omega), h0, h1]
    simp
  · match buf, h4 with
    | a :: b :: c :: rest, _ => simp

/-- C6 witness: `[0, 0, 9, 7]` yields the marker and leaves `[9, 7]`. -/
theorem zero_marker_consumes_two_witness :
    unpack_buffer [0, 0, 9, 7] = (UnpackResult.zeroMarker, [9, 7]) ∧
      (([0, 0, 9, 7] : List Nat).drop 2).getD 0 0 = ([0, 0, 9, 7] : List Nat).getD 2 0 := by
  have h := zero_marker_consumes_two [0, 0, 9, 7] (by decide) (by decide) (by decide)
  simpa using h

/-- C7: every strict truncation of a packed frame extracts as need-more-data
with the buffer left unchanged, the complete byte sequence extracts as the
frame, and any 3-byte buffer is need-more-data. -/
theorem incomplete_frame_needs_more (channel : Nat) (payload : List Nat) (fin : Nat)
    (hc : channel < 256) (hlen : payload.length + 4 < 65536) :
    (∀ k, k < (pack_frame channel payload fin).length →
        unpack_buffer ((pack_frame channel payload fin).take k) =
          (UnpackResult.needMoreData, (pack_frame channel payload fin).take k)) ∧
      unpack_buffer (pack_frame channel payload fin) =
        (UnpackResult.frame channel payload fin, []) ∧
      (∀ b : List Nat, b.length = 3 →
        unpack_buffer b = (UnpackResult.needMoreData, b)) := by
  refine ⟨?_, unpack_pack channel payload fin hc hlen, ?_⟩
  · intro k hk
    rw [pack_frame_length] at hk
    by_cases hk3 : k ≤ 3
    · have hlen2 : ((pack_frame channel payload fin).take k).length = k := by
        rw [List.length_take, pack_frame_length]; omega
      rw [unpack_buffer, if_neg (by omega)]
    · -- 4 ≤ k < payload.length + 4 : the declared size exceeds the buffer
      obtain ⟨m, rfl⟩ : ∃ m, k = m + 4 := ⟨k - 4, by omega⟩
      rw [pack_frame_cons]
      rw [show m + 4 = ((m + 3) + 1) by omega, List.take_succ_cons,
        show m + 3 = ((m + 2) + 1) by omega, List.take_succ_cons,
        show m + 2 = ((m + 1) + 1) by omega, List.take_succ_cons]
      rw [unpack_buffer]
      have htlen : ((payload ++ [fin]).take (m + 1)).length = m + 1 := by
        rw [List.length_take]
        simp only [List.length_append, List.length_singleton]
        omega
      rw [if_pos (by simp [htlen])]
      simp only [List.getD_cons_zero, List.getD_cons_succ]
      rw [size_decode _ hlen]
      rw [if_neg (by omega), if_neg (by simp [htlen]; omega)]
  · intro b hb
    rw [unpack_buffer, if_neg (by omega)]

/-- C7 witness: a strict truncation of a concrete 6-byte frame, and a
3-byte buffer. -/
theorem incomplete_frame_needs_more_witness :
    unpack_buffer ((pack_frame 7 [1, 2] 0xb0).take 5) =
      (UnpackResult.needMoreData, (pack_frame 7 [1, 2] 0xb0).take 5) ∧
      unpack_buffer [9, 9, 9] = (UnpackResult.needMoreData, [9, 9, 9]) := by
  have h := incomplete_frame_needs_more 7 [1, 2] 0xb0 (by decide) (by decide)
  exact ⟨h.1 5 (by decide), h.2.2 [9, 9, 9] (by decide)⟩

/-- C10: the extractor never checks `total_size >= 4`.  A declared size of
1, 2 or 3 on a buffer of at least 4 bytes is returned as a frame with an
empty payload whose terminator byte is read from inside the 3-byte header
region, and only `total_size` bytes are consumed. -/
theorem undersized_frame_extraction (buf : List Nat) (h4 : 4 ≤ buf.length)
    (hs : buf.getD 0 0 + 256 * buf.getD 1 0 = 1 ∨
          buf.getD 0 0 + 256 * buf.getD 1 0 = 2 ∨
          buf.getD 0 0 + 256 * buf.getD 1 0 = 3) :
    unpack_buffer buf =
      (UnpackResult.frame (buf.getD 2 0) []
          (buf.getD (buf.getD 0 0 + 256 * buf.getD 1 0 - 1) 0),
        buf.drop (buf.getD 0 0 + 256 * buf.getD 1 0)) := by
  have hsz : buf.getD 0 0 + 256 * buf.getD 1 0 ≤ 3 := by omega
  rw [unpack_buffer, if_pos (by omega), if_neg (by omega), if_pos (by omega)]
  have hempty : ((buf.take (buf.getD 0 0 + 256 * buf.getD 1 0 - 1)).drop 3 : List Nat) = [] := by
    apply List.drop_eq_nil_of_le
    rw [List.length_take]
    omega
  rw [hempty]

/-- C10 witness: declared size 1 on `[1, 0, 9, 7]` returns a frame whose
terminator is the low size byte itself and consumes one byte. -/
theorem undersized_frame_extraction_witness :
    unpack_buffer [1, 0, 9, 7] = (UnpackResult.frame 9 [] 1, [0, 9, 7]) := by
  have h := undersized_frame_extraction [1, 0, 9, 7] (by decide) (by decide)
  simpa using h

/-- C1 counterexample: the frame built by `send_object` ends with `0xB0`,
not the object terminator `0xF0`, and the frame built by `send_binary`
ends with `0xBF`, not the binary terminator `0xFF`. -/
theorem send_terminator_counterexample :
    (send_object_buf 0 []).getLast? = some 0xb0 ∧
      ((send_object_buf 0 []).getLast? == some 0xf0) = false ∧
      (send_binary_buf 0 []).getLast? = some 0xbf ∧
      ((send_binary_buf 0 []).getLast? == some 0xff) = false := by decide

/-- C1 (amended): every frame sent by `send_object` ends with `0xB0`, every
frame sent by `send_binary` ends with `0xBF`, and the binary-acknowledgment
frame from `_send_binary_ack` ends with `0x80`; each of the three emitted
terminators differs from the value the receive loop checks for on receipt
(`0xF0`, `0xFF`, `0xC0` respectively) by bit `0x40`. -/
theorem send_frame_terminators (channel : Nat) (payload : List Nat) :
    (send_object_buf channel payload).getLast? = some 0xb0 ∧
      (send_binary_buf channel payload).getLast? = some 0xbf ∧
      (∀ c : Nat, (send_binary_ack_buf c).getLast? = some 0x80) ∧
      ((0xb0 == 0xf0 : Bool) = false ∧ (0xbf == 0xff : Bool) = false ∧
        (0x80 == 0xc0 : Bool) = false) := by
  refine ⟨?_, ?_, ?_, by decide, by decide, by decide⟩
  · exact List.getLast?_concat _
  · exact List.getLast?_concat _
  · intro c
    exact List.getLast?_concat _

/-- C9 counterexample: a fatal read error (errno 5, with an errorcode table
that knows no names) propagates with the bare one-element symbol
`("UNKNOWN_ERROR",)`, unlike the write path, which attaches the platform
code. -/
theorem recv_error_symbol_counterexample :
    error_symbol (flux_recv (ReadOutcome.usbError 5)) = some [Sum.inl "UNKNOWN_ERROR"] ∧
      decide (error_symbol (flux_recv (ReadOutcome.usbError 5)) =
        some [Sum.inl "UNKNOWN_ERROR", Sum.inr 5]) = false ∧
      error_symbol (flux_send (fun _ => none) (WriteOutcome.usbError 5)) =
        some [Sum.inl "UNKNOWN_ERROR", Sum.inr 5] := by
  refine ⟨rfl, by decide, rfl⟩

/-- C9 (amended): a write-path fatal USB error (errno other than
`ETIMEDOUT`) is propagated with symbol `UNKNOWN_ERROR` plus the platform
error code; a read-path fatal USB error is propagated as a `FluxUSBError`
with the default one-element symbol `UNKNOWN_ERROR` and no platform code;
a write timeout carries symbol `TIMEOUT`; a read timeout is returned as
empty bytes rather than an error. -/
theorem transport_error_mapping (errorcode : Int → Option String) (errno : Int)
    (h : errno ≠ ETIMEDOUT) :
    flux_send errorcode (WriteOutcome.usbError errno) =
        Except.error ⟨[Sum.inl "UNKNOWN_ERROR", errorcode_elem errorcode errno]⟩ ∧
      flux_recv (ReadOutcome.usbError errno) =
        Except.error ⟨[Sum.inl "UNKNOWN_ERROR"]⟩ ∧
      flux_send errorcode (WriteOutcome.usbError ETIMEDOUT) =
        Except.error ⟨[Sum.inl "TIMEOUT"]⟩ ∧
      flux_recv (ReadOutcome.usbError ETIMEDOUT) = Except.ok [] := by
  refine ⟨?_, ?_, ?_, ?_⟩
  · simp only [flux_send]
    rw [if_neg h]
  · simp only [flux_recv]
    rw [if_neg h]
  · simp [flux_send]
  · simp [flux_recv]

/-- C9 witness: the mapping at errno 5 with an empty errorcode table. -/
theorem transport_error_mapping_witness :
    flux_send (fun _ => none) (WriteOutcome.usbError 5) =
        Except.error ⟨[Sum.inl "UNKNOWN_ERROR", errorcode_elem (fun _ => none) 5]⟩ ∧
      flux_recv (ReadOutcome.usbError 5) =
        Except.error ⟨[Sum.inl "UNKNOWN_ERROR"]⟩ ∧
      flux_send (fun _ => none) (WriteOutcome.usbError ETIMEDOUT) =
        Except.error ⟨[Sum.inl "TIMEOUT"]⟩ ∧
      flux_recv (ReadOutcome.usbError ETIMEDOUT) = Except.ok [] :=
  transport_error_mapping (fun _ => none) 5 (by decide)

/-- C3 counterexample: a control response with action `"open"` and non-ok
status leaves the state untouched — in particular the open semaphore is
not released (stays at 0 rather than becoming 1). -/
theorem ctrl_open_failure_counterexample :
    on_channel_ctrl_response ⟨[], [], 0, [], false⟩ ⟨0, some "error", some "open"⟩ =
        some ⟨[], [], 0, [], false⟩ ∧
      Option.map SessionSt.chl_semaphore
          (on_channel_ctrl_response ⟨[], [], 0, [], false⟩ ⟨0, some "error", some "open"⟩) =
        some 0 ∧
      decide (Option.map SessionSt.chl_semaphore
          (on_channel_ctrl_response ⟨[], [], 0, [], false⟩ ⟨0, some "error", some "open"⟩) =
        some 1) = false := by decide

/-- C3 (amended): when a control response with action `"open"` and a non-ok
status is handled, the handler only logs: no waiter of the open semaphore
is released and no Channel is registered — the session state is returned
completely unchanged (the blocked opener runs into its 3-second timeout
instead). -/
theorem ctrl_open_failure_noop (st : SessionSt) (resp : CtrlResponse)
    (ha : resp.action = some "open") (hs : resp.status ≠ some "ok") :
    on_channel_ctrl_response st resp = some st := by
  rw [on_channel_ctrl_response, if_pos ha, if_neg hs]

/-- C3 witness: a concrete open-failure response on a non-empty session. -/
theorem ctrl_open_failure_noop_witness :
    on_channel_ctrl_response ⟨[1], [(2, Channel_new)], 4, [], true⟩
        ⟨3, some "error", some "open"⟩ =
      some ⟨[1], [(2, Channel_new)], 4, [], true⟩ :=
  ctrl_open_failure_noop _ _ (by decide) (by decide)

/-- C2 counterexample: with the channel map `{2: ch}` the loop picks index 1,
although index 0 is also free and is strictly lower. -/
theorem open_channel_idx_counterexample :
    open_channel_idx [(2, Channel_new)] = some 1 ∧
      dictGet [(2, Channel_new)] 0 = none ∧
      0 < 1 := by decide

/-- Characterization of the selection loop: over `range (n+1)` it returns
the largest free index up to `n`, or `none` when every index up to `n` is
taken. -/
lemma open_channel_fold_spec (channels : List (Nat × ChannelSt)) (n : Nat) :
    ((List.range (n + 1)).foldl
        (fun idx i => if dictGet channels i = none then some i else idx) none = none ∧
      ∀ j, j ≤ n → dictGet channels j ≠ none) ∨
    (∃ m, (List.range (n + 1)).foldl
        (fun idx i => if dictGet channels i = none then some i else idx) none = some m ∧
      dictGet channels m = none ∧ m ≤ n ∧
      ∀ j, m < j → j ≤ n → dictGet channels j ≠ none) := by
  induction n with
  | zero =>
    by_cases h0 : dictGet channels 0 = none
    · right
      refine ⟨0, ?_, h0, le_refl 0, ?_⟩
      · simp [List.range_succ, h0]
      · intro j hj hj'
        omega
    · left
      constructor
      · simp [List.range_succ, h0]
      · intro j hj
        interval_cases j
        exact h0
  | succ n ih =>
    rw [List.range_succ, List.foldl_append]
    by_cases hn : dictGet channels (n + 1) = none
    · right
      refine ⟨n + 1, ?_, hn, le_refl _, ?_⟩
      · simp [hn]
      · intro j hj hj'
        omega
    · rcases ih with ⟨hnone, hall⟩ | ⟨m, hm, hfree, hle, hmax⟩
      · left
        refine ⟨?_, ?_⟩
        · rw [hnone]
          simp [hn]
        · intro j hj
          rcases Nat.lt_or_ge j (n + 1) with h | h
          · exact hall j (by omega)
          · have : j = n + 1 := by omega
            rw [this]
            exact hn
      · right
        refine ⟨m, ?_, hfree, by omega, ?_⟩
        · rw [hm]
          simp [hn]
        · intro j hj hj'
          rcases Nat.lt_or_ge j (n + 1) with h | h
          · exact hmax j hj (by omega)
          · have : j = n + 1 := by omega
            rw [this]
            exact hn

/-- A key with a non-`None` lookup occurs among the dict's keys. -/
lemma dictGet_mem (l : List (Nat × ChannelSt)) (k : Nat) (h : dictGet l k ≠ none) :
    k ∈ l.map Prod.fst := by
  induction l with
  | nil => simp [dictGet] at h
  | cons p t ih =>
    by_cases hp : p.1 = k
    · simp [hp]
    · rw [dictGet, List.find?_cons] at h
      have hb : (p.1 == k) = false := by
        simp [hp]
      rw [hb] at h
      simp only [List.map_cons, List.mem_cons]
      right
      exact ih h

/-- C2 (amended): for every state of the channel map, `open_channel` selects
the HIGHEST index in `{0, ..., len(channels)}` not currently present as a
key (such an index always exists), and sends the open request naming
exactly that index. -/
theorem open_channel_picks_highest_free (channels : List (Nat × ChannelSt))
    (channel_type : String) :
    ∃ m, open_channel_idx channels = some m ∧
      dictGet channels m = none ∧
      m ≤ channels.length ∧
      (∀ j, m < j → j ≤ channels.length → dictGet channels j ≠ none) ∧
      (open_channel_request channels channel_type).channel = some m := by
  rcases open_channel_fold_spec channels channels.length with ⟨_, hall⟩ | ⟨m, hm, h1, h2, h3⟩
  · -- impossible: the keys cannot cover all of 0..len(channels)
    exfalso
    have hsub : Finset.range (channels.length + 1) ⊆ (channels.map Prod.fst).toFinset := by
      intro j hj
      rw [Finset.mem_range] at hj
      rw [List.mem_toFinset]
      exact dictGet_mem channels j (hall j (by omega))
    have hcard := Finset.card_le_card hsub
    rw [Finset.card_range] at hcard
    have hlen := List.toFinset_card_le (channels.map Prod.fst)
    rw [List.length_map] at hlen
    omega
  · exact ⟨m, hm, h1, h2, h3, hm⟩

/-- C2 witness: the concrete map `{2: ch}`. -/
theorem open_channel_picks_highest_free_witness :
    ∃ m, open_channel_idx [(2, Channel_new)] = some m ∧
      dictGet [(2, Channel_new)] m = none ∧
      m ≤ 1 ∧
      (∀ j, m < j → j ≤ 1 → dictGet [(2, Channel_new)] j ≠ none) ∧
      (open_channel_request [(2, Channel_new)] "robot").channel = some m := by
  have h := open_channel_picks_highest_free [(2, Channel_new)] "robot"
  simpa using h

lemma accFrom_nil (step k : Nat) : accFrom (fun _ => []) step k = [] := by
  induction k with
  | zero => rfl
  | succ k ih => rw [accFrom, ih]; rfl

lemma accFrom_succ_front (chunks : Nat → List Nat) (step k : Nat) :
    accFrom chunks step (k + 1) = chunks step ++ accFrom chunks (step + 1) k := by
  induction k with
  | zero => simp [accFrom]
  | succ k ih =>
    rw [accFrom, ih, accFrom, List.append_assoc]
    have : step + (k + 1) = step + 1 + k := by omega
    rw [this]

/-- On a buffer from which nothing extracts, one handshake iteration only
feeds the buffer and sends a ping; by induction the loop fails after
sending one ping per remaining retry. -/
lemma handshake_loop_all_timeout (uObj : List Nat → Option HSMap) (chunks : Nat → List Nat) :
    ∀ ttl fuel step st, ttl < fuel →
      (∀ k, (unpack_buffer (st.buf ++ accFrom chunks step (k + 1))).1 =
        UnpackResult.needMoreData) →
      handshake_loop uObj chunks fuel ttl step st =
        some (HSOutcome.failed,
          { st with buf := st.buf ++ accFrom chunks step ttl,
                    sends := st.sends ++ List.replicate ttl (0xfc, HSOut.pyNone) }) := by
  intro ttl
  induction ttl with
  | zero =>
    intro fuel step st hfuel _
    obtain ⟨f, rfl⟩ : ∃ f, fuel = f + 1 := ⟨fuel - 1, by omega⟩
    rw [handshake_loop, if_pos rfl]
    have hb : st.buf ++ accFrom chunks step 0 = st.buf := by
      rw [accFrom]
      exact List.append_nil _
    rw [hb, List.replicate, List.append_nil]
  | succ ttl ih =>
    intro fuel step st hfuel hnone
    obtain ⟨f, rfl⟩ : ∃ f, fuel = f + 1 := ⟨fuel - 1, by omega⟩
    rw [handshake_loop, if_neg (by omega)]
    have hchunk : accFrom chunks step 1 = chunks step := by
      rw [accFrom, accFrom]
      exact List.nil_append _
    have hstep : unpack_buffer (st.buf ++ chunks step) =
        (UnpackResult.needMoreData, st.buf ++ chunks step) := by
      apply unpack_needMore_eq
      have h1 := hnone 0
      rw [hchunk] at h1
      exact h1
    have hdrain : drain_buffer ((st.buf ++ chunks step).length + 1) (st.buf ++ chunks step) none =
        (none, st.buf ++ chunks step) := by
      rw [drain_buffer, hstep]
    simp only [hdrain]
    have hrec := ih f (step + 1)
      { st with buf := st.buf ++ chunks step,
                sends := st.sends ++ [(0xfc, HSOut.pyNone)] }
      (by omega)
      (by
        intro k
        have h2 := hnone (k + 1)
        rw [accFrom_succ_front, ← List.append_assoc] at h2
        exact h2)
    simp only [Nat.add_sub_cancel]
    dsimp only at hrec
    rw [hrec]
    have hbuf : st.buf ++ chunks step ++ accFrom chunks (step + 1) ttl =
        st.buf ++ accFrom chunks step (ttl + 1) := by
      rw [accFrom_succ_front, List.append_assoc]
    have hsends : st.sends ++ [(0xfc, HSOut.pyNone)] ++ List.replicate ttl (0xfc, HSOut.pyNone) =
        st.sends ++ List.replicate (ttl + 1) (0xfc, HSOut.pyNone) := by
      rw [List.replicate_succ, List.append_assoc]
      rfl
    rw [hbuf, hsends]

/-- C4: when no handshake read ever yields a decodable frame, `do_handshake`
sends exactly 5 ping objects (`None`) on channel `0xFC` and then terminates
with the handshake-failure error instead of looping forever (6 loop
iterations of fuel suffice). -/
theorem handshake_retry_exhaustion (uObj : List Nat → Option HSMap) (chunks : Nat → List Nat)
    (H : ∀ k, (unpack_buffer (accFrom chunks 0 (k + 1))).1 = UnpackResult.needMoreData) :
    do_handshake uObj chunks 6 =
      some (HSOutcome.failed,
        { buf := accFrom chunks 0 5, session := none, endpoint_profile := none,
          sends := List.replicate 5 (0xfc, HSOut.pyNone) }) := by
  have h := handshake_loop_all_timeout uObj chunks 5 6 0 ⟨[], none, none, []⟩ (by omega)
    (by
      intro k
      have hk := H k
      rw [← List.nil_append (accFrom chunks 0 (k + 1))] at hk
      exact hk)
  rw [do_handshake, h]
  rfl

/-- C4 witness: a transport that always times out (every read is empty). -/
theorem handshake_retry_exhaustion_witness :
    do_handshake (fun _ => none) (fun _ => []) 6 =
      some (HSOutcome.failed,
        { buf := [], session := none, endpoint_profile := none,
          sends := List.replicate 5 (0xfc, HSOut.pyNone) }) := by
  have h := handshake_retry_exhaustion (fun _ => none) (fun _ => [])
    (by
      intro k
      rw [accFrom_nil]
      rfl)
  rw [accFrom_nil] at h
  exact h

/-- C8: a steady-state iteration raises a fatal protocol error exactly for
the extraction outcomes the claim enumerates; a `needMoreData` extraction
(empty read on an undecodable buffer included) ends the iteration with no
dispatch and no error; and whenever the loop stops on an error, `running`
is cleared. -/
theorem run_once_fatal_characterization (decodeObj : List Nat → Nat)
    (decodeCtrl : List Nat → CtrlResponse) (chunk : List Nat) (st : SessionSt) :
    is_fatal_protocol_error (run_once decodeObj decodeCtrl chunk st) =
        fatal_error_spec st.channels (unpack_buffer (st.buf ++ chunk)).1 ∧
      ((unpack_buffer (st.buf ++ chunk)).1 = UnpackResult.needMoreData →
        run_once decodeObj decodeCtrl chunk st = Except.ok { st with buf := st.buf ++ chunk }) ∧
      (∀ chunks fuel step st0 e stf,
        run_loop decodeObj decodeCtrl chunks fuel step st0 = some (RunExit.errored e stf) →
        stf.running = false) := by
  refine ⟨?_, ?_, ?_⟩
  · rcases hu : unpack_buffer (st.buf ++ chunk) with ⟨r, b2⟩
    simp only [run_once, hu]
    cases r with
    | needMoreData => rfl
    | zeroMarker => rfl
    | frame cidx payload fin =>
      by_cases hc : cidx < 0x80
      · simp only [fatal_error_spec, if_pos hc]
        cases hg : dictGet st.channels cidx with
        | none =>
          simp only [hg]
          rfl
        | some ch =>
          simp only [hg]
          by_cases h0 : fin = 0xf0
          · simp [h0, is_fatal_protocol_error]
          · by_cases h1 : fin = 0xff
            · simp [h0, h1, is_fatal_protocol_error]
            · by_cases h2 : fin = 0xc0
              · simp [h0, h1, h2, is_fatal_protocol_error]
              · simp [h0, h1, h2, is_fatal_protocol_error]
      · simp only [fatal_error_spec, if_neg hc]
        by_cases hf1 : cidx = 0xf1
        · simp only [if_pos hf1]
          by_cases h0 : fin = 0xf0
          · rw [if_neg (not_not_intro h0)]
            cases hr : on_channel_ctrl_response { st with buf := b2 } (decodeCtrl payload) with
            | some st2 => simp [hr, h0, is_fatal_protocol_error]
            | none => simp [hr, h0, is_fatal_protocol_error]
          · rw [if_pos h0]
            simp [h0, is_fatal_protocol_error]
        · simp only [if_neg hf1]
          simp [is_fatal_protocol_error]
  · intro h
    have heq := unpack_needMore_eq _ h
    simp only [run_once, heq]
  · intro chunks fuel
    induction fuel with
    | zero =>
      intro step st0 e stf hrun
      rw [run_loop] at hrun
      exact absurd hrun (by simp)
    | succ fuel ih =>
      intro step st0 e stf hrun
      rw [run_loop] at hrun
      by_cases hr : st0.running
      · rw [if_pos hr] at hrun
        cases ho : run_once decodeObj decodeCtrl (chunks step) st0 with
        | ok st2 =>
          rw [ho] at hrun
          exact ih (step + 1) st2 e stf hrun
        | error e2 =>
          rw [ho] at hrun
          simp only [Option.some.injEq] at hrun
          cases hrun
          rfl
      · rw [if_neg hr] at hrun
        simp only [Option.some.injEq] at hrun
        exact absurd hrun (by simp)

/-- C8 witness: a read on an undecodable 1-byte buffer dispatches nothing
and raises nothing. -/
theorem run_once_fatal_characterization_witness :
    run_once (fun _ => 0) (fun _ => ⟨0, none, none⟩) []
        { buf := [1], channels := [], chl_semaphore := 0, sends := [], running := true } =
      Except.ok
        { buf := [1] ++ [], channels := [], chl_semaphore := 0, sends := [],
          running := true } := by
  have h := (run_once_fatal_characterization (fun _ => 0) (fun _ => ⟨0, none, none⟩) []
    { buf := [1], channels := [], chl_semaphore := 0, sends := [], running := true }).2.1
  exact h (by decide)

end Usb2
